import Mathlib

/-!
Verification of the Steem WebSocket Bridge v2 server against its
natural-language specification.

The development shallowly embeds the behaviour of the server
(class SteemWebSocketServer): JSON values and wire frames, the
per-connection rate limiter and admission pipeline, the request
dispatcher and its argument validation, the retrying upstream caller,
the node-health pool with failover, the tiered cache, and the periodic
broadcast fan-out.  Machine timestamps are modelled as natural or
integer milliseconds; the rendering of an instant by
new Date(ms).toISOString() is modelled by the injective constructor
JVal.time ms.
-/

namespace SteemBridge

/-- A JSON-like value as it appears in frames sent by the server.
The constructor time ms stands for the ISO rendering of the instant
ms (milliseconds since epoch); jsUndefined stands for the JavaScript value
undefined, which JSON.stringify drops from object fields. -/
inductive JVal where
  | s (x : String)
  | n (x : Int)
  | b (x : Bool)
  | null
  | jsUndefined
  | time (ms : Nat)
  | arr (xs : List JVal)
  | obj (fields : List (String × JVal))

mutual

/-- Structural equality of JSON values, modelling the comparison of
their JSON.stringify renderings. -/
def jvalBeq : JVal → JVal → Bool
  | .s a, .s b => a = b
  | .n a, .n b => a = b
  | .b a, .b b => a = b
  | .null, .null => true
  | .jsUndefined, .jsUndefined => true
  | .time a, .time b => a = b
  | .arr xs, .arr ys => jvalListBeq xs ys
  | .obj fs, .obj gs => jvalFieldsBeq fs gs
  | _, _ => false

/-- Elementwise equality of JSON arrays. -/
def jvalListBeq : List JVal → List JVal → Bool
  | [], [] => true
  | x :: xs, y :: ys => jvalBeq x y && jvalListBeq xs ys
  | _, _ => false

/-- Fieldwise equality of JSON objects. -/
def jvalFieldsBeq : List (String × JVal) → List (String × JVal) → Bool
  | [], [] => true
  | (k, x) :: xs, (l, y) :: ys => decide (k = l) && jvalBeq x y && jvalFieldsBeq xs ys
  | _, _ => false

end

/-- JavaScript truthiness of a value (objects, arrays and dates are
always truthy; 0, empty string, false, null and undefined are falsy).
NaN does not occur in the modelled fragment. -/
def truthy : JVal → Bool
  | .s x => x ≠ ""
  | .n x => x ≠ 0
  | .b x => x
  | .null => false
  | .jsUndefined => false
  | .time _ => true
  | .arr _ => true
  | .obj _ => true

/-- The JavaScript short-circuit disjunction v or-else d, as used in
expressions such as id or unknown. -/
def jsOr (v d : JVal) : JVal := if truthy v then v else d

/-- Whether a value is the JavaScript undefined. -/
def isUndef : JVal → Bool
  | .jsUndefined => true
  | _ => false

/-- Whether a value is an array (Array.isArray). -/
def isArr : JVal → Bool
  | .arr _ => true
  | _ => false

/-- A wire frame: the ordered field list of the object passed to
JSON.stringify. -/
abbrev Frame := List (String × JVal)

/-- The field list that JSON.stringify actually serializes: fields
whose value is undefined are dropped. -/
def serializedFields (f : Frame) : Frame :=
  f.filter (fun kv => !isUndef kv.2)

/-- Whether the serialized frame carries a field named k. -/
def hasField (f : Frame) (k : String) : Bool :=
  (serializedFields f).any (fun kv => kv.1 = k)

/-- The value of field k in the serialized frame, if present. -/
def fieldValue (f : Frame) (k : String) : Option JVal :=
  ((serializedFields f).find? (fun kv => kv.1 = k)).map (fun kv => kv.2)

/-- Whether the frame's type field is the string t. -/
def frameTypeIs (f : Frame) (t : String) : Bool :=
  match fieldValue f "type" with
  | some (.s x) => x = t
  | _ => false

/-! ### Server constants (from the SteemWebSocketServer constructor) -/

/-- ws.maxMessagesPerMinute. -/
def requestsPerMinute : Nat := 2000

/-- The rate-limit window length in milliseconds. -/
def rateWindowMs : Nat := 60000

/-- this.maxQueueSize. -/
def maxQueueSize : Nat := 1000

/-- this.cache.maxCacheSize. -/
def maxCacheSize : Nat := 1000

/-- this.cache.globalTTL. -/
def globalTTL : Nat := 3000

/-- this.cache.witnessTTL. -/
def witnessTTL : Nat := 300000

/-- this.cache.blockTTL. -/
def blockTTL : Nat := 300000

/-- The connection cap checked on connection. -/
def maxConnections : Nat := 100

/-- The configured upstream endpoints (steemNodes). -/
def steemNodes : List String :=
  ["https://api.steemit.com/",
   "https://api.moecki.online/",
   "https://api.steemitdev.com/",
   "https://steemd.steemworld.org/",
   "https://api.pennsif.net/",
   "https://api.botsteem.com/",
   "https://api.steememory.com/",
   "https://steemapi.boylikegirl.club/",
   "https://api.justyy.com/",
   "https://api.steem.fans/"]

/-! ### Error and reply frames -/

/-- The rate-limit error frame (ws.on message handler): note it has no
id and no method field; rateLimitReset renders lastReset + 60000. -/
def rateLimitErrorFrame (lastReset : Nat) : Frame :=
  [("type", .s "error"),
   ("error", .s "Rate limit exceeded. Max 2000 messages per minute."),
   ("rateLimitReset", .time (lastReset + rateWindowMs))]

/-- The queue-full error frame. -/
def queueFullFrame : Frame :=
  [("type", .s "error"),
   ("error", .s "Server queue full. Please retry in a moment.")]

/-- The invalid-JSON error frame; msg is the parser's error message. -/
def invalidJsonFrame (msg : String) : Frame :=
  [("type", .s "error"),
   ("error", .s "Invalid JSON format"),
   ("message", .s msg)]

/-- The missing-method error frame sent at the top of handleMessage. -/
def missingMethodFrame (id : JVal) : Frame :=
  [("id", id),
   ("error", .s "Method is required"),
   ("type", .s "error")]

/-- The catch-path error frame of handleMessage, covering
unsupported-method, missing-argument and upstream-failure errors. -/
def catchErrorFrame (id method : JVal) (errMsg : String) : Frame :=
  [("id", jsOr id (.s "unknown")),
   ("error", .s errMsg),
   ("type", .s "error"),
   ("method", jsOr method (.s "unknown_method"))]

/-- A successful reply frame. -/
def responseFrame (id result : JVal) : Frame :=
  [("id", id), ("result", result), ("type", .s "response")]

/-- A subscription update frame. -/
def subscriptionUpdateFrame (feed : String) (data : JVal) (now : Nat) : Frame :=
  [("type", .s "subscription_update"),
   ("subscription", .s feed),
   ("data", data),
   ("timestamp", .time now)]

/-- The legacy broadcast frame for head-state changes. -/
def legacyBroadcastFrame (data : JVal) (now : Nat) : Frame :=
  [("type", .s "broadcast"),
   ("method", .s "dynamic_global_properties_update"),
   ("data", data),
   ("timestamp", .time now)]

/-- The welcome frame sent on accept (abridged to its field skeleton;
the two api lists are carried as string arrays). -/
def welcomeFrame : Frame :=
  [("type", .s "connection"),
   ("status", .s "connected"),
   ("message", .s "Connected to Steem WebSocket API"),
   ("availableApis", .arr [.s "get_dynamic_global_properties", .s "get_block_header",
     .s "get_block", .s "get_ops_in_block", .s "get_active_witnesses",
     .s "get_transaction", .s "get_ticker", .s "get_order_book",
     .s "get_recent_trades", .s "get_accounts", .s "get_market_history",
     .s "get_account_history", .s "get_witnesses_by_vote", .s "get_vesting_delegations"]),
   ("subscriptionApis", .arr [.s "subscribe_global_properties", .s "unsubscribe_global_properties",
     .s "subscribe_blocks", .s "unsubscribe_blocks",
     .s "subscribe_block_headers", .s "unsubscribe_block_headers",
     .s "subscribe_operations", .s "unsubscribe_operations",
     .s "subscribe_witnesses", .s "unsubscribe_witnesses"]),
   ("rateLimits", .obj [("requestsPerMinute", .n 2000), ("subscriptionsUnlimited", .b true)])]

/-! ### Connection front-end: admission, rate limiting, queueing -/

/-- An externally visible action on a WebSocket connection. -/
inductive WsAction where
  | send (f : Frame)
  | enqueue
  | close (code : Nat) (reason : String)

/-- Whether an action list admits the frame to the request queue. -/
def admitsEnqueue (acts : List WsAction) : Bool :=
  acts.any (fun a => match a with | .enqueue => true | _ => false)

/-- Whether an action list closes the connection. -/
def hasClose (acts : List WsAction) : Bool :=
  acts.any (fun a => match a with | .close _ _ => true | _ => false)

/-- The connection handler at accept time: at capacity the socket is
closed with code 1008, otherwise the welcome frame is sent.  (The code
tests wss.clients.size > 100 after the new socket is counted.) -/
def onConnection (clientCount : Nat) : List WsAction :=
  if clientCount > maxConnections then [.close 1008 "Server at capacity"]
  else [.send welcomeFrame]

/-- Per-connection rate-limit state: ws.messageCount and ws.lastReset. -/
structure ConnState where
  messageCount : Nat
  lastReset : Nat
deriving DecidableEq, Repr

/-- The ws.on message handler up to queue admission: reset the fixed
window if more than 60 s elapsed, count the frame, reject over-cap
frames with the rate-limit error frame, then parse (parsed carries the
result of JSON.parse) and either enqueue or answer queue-full /
invalid-JSON. -/
def onMessage (st : ConnState) (now : Nat) (queueLen : Nat)
    (parsed : Except String JVal) : ConnState × List WsAction :=
  let st1 := if now - st.lastReset > rateWindowMs then ConnState.mk 0 now else st
  let st2 := ConnState.mk (st1.messageCount + 1) st1.lastReset
  if st2.messageCount > requestsPerMinute then
    (st2, [.send (rateLimitErrorFrame st2.lastReset)])
  else
    match parsed with
    | .ok _ =>
        if queueLen < maxQueueSize then (st2, [.enqueue])
        else (st2, [.send queueFullFrame])
    | .error msg => (st2, [.send (invalidJsonFrame msg)])

/-- Run the message handler over a list of frame arrival times, with an
empty queue and well-formed frames, recording for each frame whether it
was admitted to the dispatcher queue. -/
def admitRun (st : ConnState) : List Nat → ConnState × List (Nat × Bool)
  | [] => (st, [])
  | t :: ts =>
      let r := onMessage st t 0 (.ok (.obj []))
      let rest := admitRun r.1 ts
      (rest.1, (t, admitsEnqueue r.2) :: rest.2)

/-- Number of admitted frames whose arrival time lies in the closed
60-second window starting at lo. -/
def windowAdmitted (out : List (Nat × Bool)) (lo : Nat) : Nat :=
  out.countP (fun p => decide (lo ≤ p.1) && decide (p.1 ≤ lo + rateWindowMs) && p.2)

/-- Whether a list of arrival times is nondecreasing. -/
def nondecr : List Nat → Bool
  | [] => true
  | [_] => true
  | a :: b :: ts => decide (a ≤ b) && nondecr (b :: ts)

/-! ### Request dispatcher: method routing and argument validation -/

/-- params[0] of a JavaScript argument array (undefined when absent). -/
def param0 (params : List JVal) : JVal := params.headD .jsUndefined

/-- params[1] of a JavaScript argument array (undefined when absent). -/
def param1 (params : List JVal) : JVal := (params.drop 1).headD .jsUndefined

/-- The routing decision of the handleMessage switch for one method
name: invoke a named handler with arguments, mutate a subscription
feed, or throw the given error message (caught by the catch path). -/
inductive Route where
  | invoke (handler : String) (args : List JVal)
  | subscribeFeed (feed : String)
  | unsubscribeFeed (feed : String)
  | throwErr (msg : String)

/-- The handleMessage switch: method-name dispatch with argument
validation, accepting each request method in bare and prefixed form.
Falsy first parameters fail the JavaScript truthiness tests written
as if (!params[0]) in the source. -/
def dispatchRoute (method : String) (params : List JVal) : Route :=
  match method with
  | "condenser_api.get_dynamic_global_properties"
  | "get_dynamic_global_properties" => .invoke "getDynamicGlobalProperties" []
  | "condenser_api.get_block_header"
  | "get_block_header" =>
      if !truthy (param0 params) then .throwErr "Block number is required"
      else .invoke "getBlockHeader" [param0 params]
  | "condenser_api.get_block"
  | "get_block" =>
      if !truthy (param0 params) then .throwErr "Block number is required"
      else .invoke "getBlock" [param0 params]
  | "condenser_api.get_ops_in_block"
  | "get_ops_in_block" =>
      if !truthy (param0 params) then .throwErr "Block number is required"
      else .invoke "getOpsInBlock" [param0 params, jsOr (param1 params) (.b false)]
  | "condenser_api.get_active_witnesses"
  | "get_active_witnesses" => .invoke "getActiveWitnesses" []
  | "condenser_api.get_transaction"
  | "get_transaction" =>
      if !truthy (param0 params) then .throwErr "Transaction ID is required"
      else .invoke "getTransaction" [param0 params]
  | "market_history_api.get_ticker"
  | "get_ticker" => .invoke "getTicker" params
  | "market_history_api.get_order_book"
  | "get_order_book" => .invoke "getOrderBook" params
  | "market_history_api.get_recent_trades"
  | "get_recent_trades" => .invoke "getRecentTrades" params
  | "condenser_api.get_accounts"
  | "get_accounts" =>
      if !truthy (param0 params) || !isArr (param0 params) then
        .throwErr "Array of account names required"
      else .invoke "getAccounts" params
  | "market_history_api.get_market_history"
  | "get_market_history" =>
      if params.length < 3 then .throwErr "Bucket seconds, start, and end time required"
      else .invoke "getMarketHistory" params
  | "condenser_api.get_account_history"
  | "get_account_history" =>
      if !truthy (param0 params) then .throwErr "Account name required"
      else .invoke "getAccountHistory" params
  | "condenser_api.get_witnesses_by_vote"
  | "get_witnesses_by_vote" => .invoke "getWitnessesByVote" params
  | "condenser_api.get_vesting_delegations"
  | "get_vesting_delegations" =>
      if !truthy (param0 params) then .throwErr "Account name required"
      else .invoke "getVestingDelegations" params
  | "subscribe_global_properties" => .subscribeFeed "global_properties"
  | "unsubscribe_global_properties" => .unsubscribeFeed "global_properties"
  | "subscribe_blocks" => .subscribeFeed "blocks"
  | "unsubscribe_blocks" => .unsubscribeFeed "blocks"
  | "subscribe_block_headers" => .subscribeFeed "block_headers"
  | "unsubscribe_block_headers" => .unsubscribeFeed "block_headers"
  | "subscribe_operations" => .subscribeFeed "operations"
  | "unsubscribe_operations" => .unsubscribeFeed "operations"
  | "subscribe_witnesses" => .subscribeFeed "witnesses"
  | "unsubscribe_witnesses" => .unsubscribeFeed "witnesses"
  | _ => .throwErr ("Unsupported method: " ++ method)

/-- Actions emitted by the handleMessage catch path: a node switch is
triggered only for network or timeout errors, then a single error
frame is sent; the connection is never closed here. -/
def catchPathActions (id method : JVal) (errMsg : String) : List WsAction :=
  [.send (catchErrorFrame id method errMsg)]

/-- Actions emitted when the inbound frame has no method field. -/
def missingMethodActions (id : JVal) : List WsAction :=
  [.send (missingMethodFrame id)]

/-! ### Retrying upstream caller (callSteemAPI) -/

/-- A step of the retry loop, for the trace of observable effects. -/
inductive RetryEvent where
  | call (attempt : Nat)
  | failover
  | sleep (ms : Nat)
deriving DecidableEq, Repr

/-- The retry loop of callSteemAPI from a given attempt number with a
given number of attempts remaining; outcome gives, per attempt number,
the upstream result of that attempt.  On failure before the last
attempt the loop switches node and sleeps 1000 * attempt milliseconds;
the last failure is rethrown unchanged.  The loop always returns or
throws from its last attempt, so the zero-fuel case is unreachable
when at least one attempt remains. -/
def callFrom (outcome : Nat → Except String JVal) :
    Nat → Nat → List RetryEvent × Except String JVal
  | _, 0 => ([], .error "")
  | attempt, 1 =>
      ([.call attempt], outcome attempt)
  | attempt, r + 2 =>
      match outcome attempt with
      | .ok v => ([.call attempt], .ok v)
      | .error _ =>
          let rest := callFrom outcome (attempt + 1) (r + 1)
          (.call attempt :: .failover :: .sleep (1000 * attempt) :: rest.1, rest.2)

/-- callSteemAPI with the default maxRetries = 3: attempts are numbered
1, 2, 3. -/
def callSteemAPI (outcome : Nat → Except String JVal) :
    List RetryEvent × Except String JVal :=
  callFrom outcome 1 3

/-- Number of upstream attempts recorded in a retry trace. -/
def countCalls (evs : List RetryEvent) : Nat :=
  evs.countP (fun e => match e with | .call _ => true | _ => false)

/-! ### Cache layer -/

/-- An entry of a bounded cache map: the cached value and its store
time. -/
structure CacheEntry where
  value : JVal
  timestamp : Nat

/-- A JavaScript Map in insertion order (keys are unique; set on an
existing key updates in place and keeps the original position). -/
abbrev JsMap := List (String × CacheEntry)

/-- Map.prototype.set: update in place if the key exists, else append. -/
def jsMapSet (m : JsMap) (k : String) (e : CacheEntry) : JsMap :=
  if m.any (fun kv => kv.1 = k) then
    m.map (fun kv => if kv.1 = k then (k, e) else kv)
  else m ++ [(k, e)]

/-- Map.prototype.delete of the first (only) entry with the key. -/
def jsMapDelete (m : JsMap) (k : String) : JsMap :=
  m.eraseP (fun kv => decide (kv.1 = k))

/-- Map.prototype.get. -/
def jsMapGet (m : JsMap) (k : String) : Option CacheEntry :=
  (m.find? (fun kv => kv.1 = k)).map (fun kv => kv.2)

/-- setCacheItem: when the map is at (or over) the size bound, evict
the entry with the oldest-inserted key (map.keys().next().value), then
insert the value with the current timestamp. -/
def setCacheItem (m : JsMap) (k : String) (v : JVal) (now : Nat) : JsMap :=
  jsMapSet
    (if m.length ≥ maxCacheSize then
       match m.head? with
       | some kv => jsMapDelete m kv.1
       | none => m
     else m)
    k (CacheEntry.mk v now)

/-- getCacheItem: absent is a miss; an expired entry is removed and is
a miss; otherwise the value is returned.  The hit and miss counters are
monotonic and are elided here. -/
def getCacheItem (m : JsMap) (k : String) (ttl now : Nat) : Option JVal × JsMap :=
  match jsMapGet m k with
  | none => (none, m)
  | some item =>
      if now - item.timestamp > ttl then (none, jsMapDelete m k)
      else (some item.value, m)

/-- The tiered cache of the server (this.cache), TTL constants apart. -/
structure Cache where
  globalProperties : Option JVal
  activeWitnesses : Option JVal
  blockHeaders : JsMap
  blocks : JsMap
  operations : JsMap
  lastGlobalUpdate : Nat
  lastWitnessUpdate : Nat

/-- The empty cache of a freshly constructed server. -/
def Cache.initial : Cache :=
  Cache.mk none none [] [] [] 0 0

/-- clearCache: drop every cache layer (called by switchToHealthyNode). -/
def clearCache (_c : Cache) : Cache :=
  Cache.mk none none [] [] [] 0 0

/-- One client-visible operation on a bounded cache map. -/
inductive CacheOp where
  | store (k : String) (v : JVal) (now : Nat)
  | lookup (k : String) (ttl now : Nat)
  | clearOp

/-- Apply one operation to a bounded map. -/
def applyCacheOp (m : JsMap) : CacheOp → JsMap
  | .store k v now => setCacheItem m k v now
  | .lookup k ttl now => (getCacheItem m k ttl now).2
  | .clearOp => []

/-- Apply a sequence of operations to a bounded map. -/
def applyCacheOps (m : JsMap) : List CacheOp → JsMap
  | [] => m
  | op :: ops => applyCacheOps (applyCacheOp m op) ops

/-! ### Singleton slots: head state and active witnesses -/

/-- getDynamicGlobalProperties: serve the slot within its TTL; else
refresh upstream, updating the slot on success; on refresh failure
fall back to the stale slot value when present, otherwise rethrow. -/
def getDynamicGlobalProperties (c : Cache) (now : Nat)
    (upstream : Except String JVal) : Except String JVal × Cache :=
  match c.globalProperties with
  | some v =>
      if now - c.lastGlobalUpdate < globalTTL then (.ok v, c)
      else
        match upstream with
        | .ok r => (.ok r, { c with globalProperties := some r, lastGlobalUpdate := now })
        | .error _ => (.ok v, c)
  | none =>
      match upstream with
      | .ok r => (.ok r, { c with globalProperties := some r, lastGlobalUpdate := now })
      | .error e => (.error e, c)

/-- getActiveWitnesses: same slot discipline with the witness TTL; on a
successful refresh whose JSON rendering differs from the previous slot
value (JavaScript null rendering as the JSON null), a subscription
update is broadcast to the witnesses feed when it has subscribers. -/
def getActiveWitnesses (c : Cache) (now : Nat)
    (upstream : Except String JVal) (witnessSubscriberCount : Nat) :
    Except String JVal × Cache × List Frame :=
  match c.activeWitnesses with
  | some v =>
      if now - c.lastWitnessUpdate < witnessTTL then (.ok v, c, [])
      else
        match upstream with
        | .ok r =>
            (.ok r, { c with activeWitnesses := some r, lastWitnessUpdate := now },
             if witnessSubscriberCount > 0 && !jvalBeq r v then
               [subscriptionUpdateFrame "witnesses" r now]
             else [])
        | .error _ => (.ok v, c, [])
  | none =>
      match upstream with
      | .ok r =>
          (.ok r, { c with activeWitnesses := some r, lastWitnessUpdate := now },
           if witnessSubscriberCount > 0 && !jvalBeq r .null then
             [subscriptionUpdateFrame "witnesses" r now]
           else [])
      | .error e => (.error e, c, [])

/-! ### Upstream pool: health records and failover -/

/-- The per-endpoint health record (this.nodeHealth entries). lastError
is null until the first failure; JavaScript arithmetic coerces that
null to 0. -/
structure NodeHealth where
  url : String
  healthy : Bool
  lastError : Option Int
  errorCount : Nat
  lastSuccess : Int
  avgResponseTime : Int
  totalRequests : Nat
deriving DecidableEq, Repr

/-- The initial health record for an endpoint, with the construction
instant as lastSuccess. -/
def NodeHealth.initial (url : String) (start : Int) : NodeHealth :=
  NodeHealth.mk url true none 0 start 0 0

/-- JavaScript numeric coercion of a possibly-null timestamp. -/
def tsVal (t : Option Int) : Int := t.getD 0

/-- The failover filter: an endpoint survives when it is marked healthy
or its last error is older than the 60-second recovery window. -/
def eligibleNode (now : Int) (h : NodeHealth) : Bool :=
  h.healthy || decide (now - tsVal h.lastError > 60000)

/-- Coercion of a JavaScript boolean used in the sort comparator. -/
def boolToInt (b : Bool) : Int := if b then 1 else 0

/-- The comparator of switchToHealthyNode: healthy first, then lower
error count, then lower average response time. -/
def nodeCmp (a b : NodeHealth) : Int :=
  if a.healthy ≠ b.healthy then boolToInt b.healthy - boolToInt a.healthy
  else if a.errorCount ≠ b.errorCount then (a.errorCount : Int) - (b.errorCount : Int)
  else a.avgResponseTime - b.avgResponseTime

/-- The nonstrict order induced by the comparator on indexed health
records; a stable sort by this order models Array.prototype.sort. -/
def nodeLe (a b : Nat × NodeHealth) : Prop := nodeCmp a.2 b.2 ≤ 0

instance : DecidableRel nodeLe :=
  fun a b => inferInstanceAs (Decidable (nodeCmp a.2 b.2 ≤ 0))

/-- Pair every list element with its index, mirroring the map over
(health, index) in switchToHealthyNode. -/
def enumIdxFrom (i : Nat) : List α → List (Nat × α)
  | [] => []
  | x :: xs => (i, x) :: enumIdxFrom (i + 1) xs

/-- enumIdxFrom starting at index 0. -/
def enumIdx (l : List α) : List (Nat × α) := enumIdxFrom 0 l

/-- Replace the element at an index, if it exists. -/
def modifyIdx (f : α → α) : Nat → List α → List α
  | _, [] => []
  | 0, x :: xs => f x :: xs
  | n + 1, x :: xs => x :: modifyIdx f n xs

/-- Marking the failing endpoint at the top of switchToHealthyNode:
unhealthy, last error now, one more error. -/
def markUnhealthy (now : Int) (h : NodeHealth) : NodeHealth :=
  { h with healthy := false, lastError := some now, errorCount := h.errorCount + 1 }

/-- The survivors of the failover filter over the marked list, with
their indices. -/
def failoverCandidates (now : Int) (nodes : List NodeHealth) (cur : Nat) :
    List (Nat × NodeHealth) :=
  (enumIdx (modifyIdx (markUnhealthy now) cur nodes)).filter
    (fun p => eligibleNode now p.2)

/-- Result of switchToHealthyNode: the updated health list, the newly
selected endpoint index, and the cache after the switch. -/
structure SwitchResult where
  nodes : List NodeHealth
  index : Nat
  cache : Cache

/-- switchToHealthyNode: mark the current endpoint unhealthy, filter to
eligible endpoints, rank them by the comparator with a stable sort and
take the first; when no endpoint is eligible keep the current index;
on an actual selection the whole cache is dropped.  (The source clears
the cache unconditionally after the empty-filter early return.) -/
def switchToHealthyNode (now : Int) (nodes : List NodeHealth) (cur : Nat)
    (c : Cache) : SwitchResult :=
  let marked := modifyIdx (markUnhealthy now) cur nodes
  let sorted := List.insertionSort nodeLe (failoverCandidates now nodes cur)
  match sorted with
  | [] => SwitchResult.mk marked cur c
  | best :: _ => SwitchResult.mk marked best.1 (clearCache c)

/-- switchNode (the error-path failover): advance the endpoint index
round-robin and clear only the two singleton slots and their
timestamps, leaving the three bounded per-block maps untouched. -/
def switchNode (cur : Nat) (c : Cache) : Nat × Cache :=
  ((cur + 1) % steemNodes.length,
   { c with globalProperties := none, activeWitnesses := none,
            lastGlobalUpdate := 0, lastWitnessUpdate := 0 })

/-! ### Subscriptions and broadcast -/

/-- A client session as seen by the broadcast paths: its identity and
whether its readyState is OPEN. -/
structure Session where
  sid : Nat
  isOpen : Bool
deriving DecidableEq, Repr

/-- Set.prototype.add on a subscriber list (idempotent). -/
def addSubscriber (subs : List Session) (s : Session) : List Session :=
  if s ∈ subs then subs else subs ++ [s]

/-- The subscribe_global_properties case of handleMessage: register the
session, acknowledge, and when the head-state slot is populated send
the current data immediately, with no frame in between. -/
def handleSubscribeGlobalProperties (subs : List Session) (ws : Session)
    (id : JVal) (c : Cache) (now : Nat) : List Session × List Frame :=
  (addSubscriber subs ws,
   responseFrame id (.obj [("subscribed", .b true), ("type", .s "global_properties")]) ::
   match c.globalProperties with
   | some gp => [subscriptionUpdateFrame "global_properties" gp now]
   | none => [])

/-- The subscribe_witnesses case of handleMessage: register the
session, acknowledge, and when the witness slot is populated send the
current data immediately, with no frame in between. -/
def handleSubscribeWitnesses (subs : List Session) (ws : Session)
    (id : JVal) (c : Cache) (now : Nat) : List Session × List Frame :=
  (addSubscriber subs ws,
   responseFrame id (.obj [("subscribed", .b true), ("type", .s "witnesses")]) ::
   match c.activeWitnesses with
   | some w => [subscriptionUpdateFrame "witnesses" w now]
   | none => [])

/-- broadcastToSubscribers: send the frame to every subscriber whose
connection is open, and prune the others from the set.  Sends are
modelled as succeeding on open connections.  Returns the addressed
messages and the pruned set. -/
def broadcastToSubscribers (subs : List Session) (f : Frame) :
    List (Nat × Frame) × List Session :=
  ((subs.filter (fun s => s.isOpen)).map (fun s => (s.sid, f)),
   subs.filter (fun s => s.isOpen))

/-- The fan-out stage of the periodic update for one detected
head-height change: subscribers of the global-properties feed get the
subscription update (when the feed has any subscriber), then every
other open client gets the legacy broadcast; the legacy test uses the
subscriber set as pruned by the first stage.  Returns the addressed
messages and the pruned subscriber set. -/
def periodicBroadcast (clients : List Session) (subs : List Session)
    (gp : JVal) (now : Nat) : List (Nat × Frame) × List Session :=
  let stage1 :=
    if subs.length > 0 then
      broadcastToSubscribers subs (subscriptionUpdateFrame "global_properties" gp now)
    else ([], subs)
  let legacy :=
    (clients.filter (fun d => d.isOpen && !(stage1.2.any (fun s => s.sid = d.sid)))).map
      (fun d => (d.sid, legacyBroadcastFrame gp now))
  (stage1.1 ++ legacy, stage1.2)

/-! ## Theorems -/

/-- Unfolding of the retry loop when at least two attempts remain. -/
theorem callFrom_step (o : Nat → Except String JVal) (a r : Nat) :
    callFrom o a (r + 2) =
      match o a with
      | .ok v => ([.call a], .ok v)
      | .error _ =>
          (.call a :: .failover :: .sleep (1000 * a) :: (callFrom o (a + 1) (r + 1)).1,
           (callFrom o (a + 1) (r + 1)).2) := rfl

/-- Unfolding of the retry loop at the last attempt. -/
theorem callFrom_last (o : Nat → Except String JVal) (a : Nat) :
    callFrom o a 1 = ([.call a], o a) := rfl

/-- Map.set grows the map by at most one entry. -/
theorem jsMapSet_length_le (m : JsMap) (k : String) (e : CacheEntry) :
    (jsMapSet m k e).length ≤ m.length + 1 := by
  unfold jsMapSet
  split
  · simp
  · simp

/-- Map.delete never grows the map. -/
theorem jsMapDelete_length_le (m : JsMap) (k : String) :
    (jsMapDelete m k).length ≤ m.length := by
  unfold jsMapDelete
  induction m with
  | nil => simp
  | cons kv rest ih =>
      rw [List.eraseP_cons]
      cases hp : decide (kv.1 = k)
      · rw [cond_false]
        simp only [List.length_cons]
        omega
      · rw [cond_true]
        simp

/-- Deleting the key of the head entry removes exactly the head. -/
theorem jsMapDelete_head (kv : String × CacheEntry) (rest : JsMap) :
    jsMapDelete (kv :: rest) kv.1 = rest := by
  unfold jsMapDelete
  rw [List.eraseP_cons]
  simp

/-- One store keeps a bounded map within the bound. -/
theorem setCacheItem_length (m : JsMap) (k : String) (v : JVal) (now : Nat)
    (h : m.length ≤ maxCacheSize) :
    (setCacheItem m k v now).length ≤ maxCacheSize := by
  unfold setCacheItem
  split
  · rename_i hge
    cases m with
    | nil =>
        have h2 := jsMapSet_length_le ([] : JsMap) k (CacheEntry.mk v now)
        simp only [List.head?_nil, List.length_nil] at h2 ⊢
        unfold maxCacheSize
        omega
    | cons kv rest =>
        simp only [List.head?_cons]
        rw [jsMapDelete_head kv rest]
        have h2 := jsMapSet_length_le rest k (CacheEntry.mk v now)
        simp only [List.length_cons] at h
        omega
  · rename_i hlt
    have h2 := jsMapSet_length_le m k (CacheEntry.mk v now)
    omega

/-- One lookup never grows a bounded map. -/
theorem getCacheItem_length (m : JsMap) (k : String) (ttl now : Nat)
    (h : m.length ≤ maxCacheSize) :
    (getCacheItem m k ttl now).2.length ≤ maxCacheSize := by
  unfold getCacheItem
  cases jsMapGet m k with
  | none => simpa using h
  | some item =>
      simp only
      split
      · exact le_trans (jsMapDelete_length_le m k) h
      · simpa using h

/-- The size bound is preserved by every operation sequence. -/
theorem applyCacheOps_length (ops : List CacheOp) :
    ∀ m : JsMap, m.length ≤ maxCacheSize →
      (applyCacheOps m ops).length ≤ maxCacheSize := by
  induction ops with
  | nil => intro m h; simpa [applyCacheOps] using h
  | cons op ops ih =>
      intro m h
      cases op with
      | store k v now => exact ih _ (setCacheItem_length m k v now h)
      | lookup k ttl now => exact ih _ (getCacheItem_length m k ttl now h)
      | clearOp => exact ih _ (by simp [applyCacheOp, maxCacheSize])

/-- A store makes the new entry retrievable with the store time. -/
theorem jsMapGet_jsMapSet (m : JsMap) (k : String) (e : CacheEntry) :
    jsMapGet (jsMapSet m k e) k = some e := by
  unfold jsMapSet
  split
  · rename_i hany
    unfold jsMapGet
    induction m with
    | nil => simp at hany
    | cons kv rest ih =>
        by_cases hk : kv.1 = k
        · simp [List.find?_cons, hk]
        · rw [List.any_cons] at hany
          simp [hk] at hany
          simpa [List.find?_cons, hk] using ih (by simpa using hany)
  · unfold jsMapGet
    induction m with
    | nil => simp
    | cons kv rest ih =>
        rename_i hany
        rw [List.any_cons] at hany
        simp only [Bool.or_eq_true, not_or] at hany
        have hk : ¬ kv.1 = k := by simpa using hany.1
        simpa [List.find?_cons, hk] using ih (by simpa using hany.2)

/--
C5: for each bounded cache map, setCacheItem evicts the
oldest-inserted entry when the map is at the size bound before
inserting the new entry with the current timestamp, and after any
sequence of store, lookup and clear operations starting from the empty
map the size never exceeds the configured maximum of 1000.
-/
theorem cache_map_size_invariant (ops : List CacheOp) :
    (applyCacheOps [] ops).length ≤ maxCacheSize ∧
    maxCacheSize = 1000 ∧
    (∀ (m : JsMap) (k : String) (v : JVal) (now : Nat),
       jsMapGet (setCacheItem m k v now) k = some (CacheEntry.mk v now)) ∧
    (∀ (kv : String × CacheEntry) (rest : JsMap) (k : String) (v : JVal) (now : Nat),
       ((kv :: rest : JsMap)).length ≥ maxCacheSize →
       setCacheItem (kv :: rest) k v now = jsMapSet rest k (CacheEntry.mk v now)) := by
  refine ⟨applyCacheOps_length ops [] (by simp), rfl, ?_, ?_⟩
  · intro m k v now
    unfold setCacheItem
    exact jsMapGet_jsMapSet _ k _
  · intro kv rest k v now hge
    unfold setCacheItem
    simp only [hge, if_pos, List.head?_cons]
    rw [jsMapDelete_head kv rest]

/--
C6: for both singleton slots, when the upstream refresh fails and a
prior value is cached the handler returns that prior value instead of
an error, and the upstream error is surfaced only when no value is
cached.
-/
theorem degraded_freshness (c : Cache) (now : Nat) (e : String) :
    (∀ v, c.globalProperties = some v →
       (getDynamicGlobalProperties c now (.error e)).1 = .ok v) ∧
    (c.globalProperties = none →
       (getDynamicGlobalProperties c now (.error e)).1 = .error e) ∧
    (∀ w subsCount, c.activeWitnesses = some w →
       (getActiveWitnesses c now (.error e) subsCount).1 = .ok w) ∧
    (∀ subsCount, c.activeWitnesses = none →
       (getActiveWitnesses c now (.error e) subsCount).1 = .error e) := by
  refine ⟨?_, ?_, ?_, ?_⟩
  · intro v hv
    simp only [getDynamicGlobalProperties, hv]
    split <;> rfl
  · intro hv
    simp only [getDynamicGlobalProperties, hv]
  · intro w subsCount hw
    simp only [getActiveWitnesses, hw]
    split <;> rfl
  · intro subsCount hw
    simp only [getActiveWitnesses, hw]

/-- Witness for the degraded-freshness theorem at a concrete stale
cache and failing upstream. -/
theorem degraded_freshness_witness :
    (Cache.mk (some (.n 7)) none [] [] [] 0 0).globalProperties = some (.n 7) ∧
    (getDynamicGlobalProperties (Cache.mk (some (.n 7)) none [] [] [] 0 0)
      99999 (.error "down")).1 = .ok (.n 7) :=
  ⟨rfl, (degraded_freshness (Cache.mk (some (.n 7)) none [] [] [] 0 0)
    99999 "down").1 (.n 7) rfl⟩

/--
C7: when the corresponding singleton slot is populated, the
subscribe_global_properties and subscribe_witnesses cases emit exactly
the acknowledgement response frame immediately followed by a
subscription update carrying the cached data, with no frame in
between, and register the session in the feed.
-/
theorem subscribe_immediate_snapshot (subs : List Session) (ws : Session)
    (id : JVal) (c : Cache) (now : Nat) :
    (∀ gp, c.globalProperties = some gp →
       (handleSubscribeGlobalProperties subs ws id c now).2 =
         [responseFrame id (.obj [("subscribed", .b true), ("type", .s "global_properties")]),
          subscriptionUpdateFrame "global_properties" gp now]) ∧
    (∀ w, c.activeWitnesses = some w →
       (handleSubscribeWitnesses subs ws id c now).2 =
         [responseFrame id (.obj [("subscribed", .b true), ("type", .s "witnesses")]),
          subscriptionUpdateFrame "witnesses" w now]) ∧
    (handleSubscribeGlobalProperties subs ws id c now).1 = addSubscriber subs ws ∧
    (handleSubscribeWitnesses subs ws id c now).1 = addSubscriber subs ws := by
  refine ⟨?_, ?_, rfl, rfl⟩
  · intro gp hgp
    unfold handleSubscribeGlobalProperties
    rw [hgp]
  · intro w hw
    unfold handleSubscribeWitnesses
    rw [hw]

/-- Witness for the immediate-snapshot theorem at a concrete populated
head-state slot. -/
theorem subscribe_immediate_snapshot_witness :
    (Cache.mk (some (.n 42)) none [] [] [] 0 0).globalProperties = some (.n 42) ∧
    (handleSubscribeGlobalProperties [] (Session.mk 1 true) (.n 3)
      (Cache.mk (some (.n 42)) none [] [] [] 0 0) 5).2 =
      [responseFrame (.n 3)
        (.obj [("subscribed", .b true), ("type", .s "global_properties")]),
       subscriptionUpdateFrame "global_properties" (.n 42) 5] :=
  ⟨rfl, (subscribe_immediate_snapshot [] (Session.mk 1 true) (.n 3)
    (Cache.mk (some (.n 42)) none [] [] [] 0 0) 5).1 (.n 42) rfl⟩

/--
C9: the validation of get_block_header, get_block, get_ops_in_block
and get_transaction tests only JavaScript truthiness of the first
parameter, so a present but falsy first parameter (0, null, false, the
empty string) is rejected exactly as an absent parameter, with the
same error message.
-/
theorem falsy_param_rejected (v : JVal) (h : truthy v = false) :
    (dispatchRoute "get_block_header" [v] = .throwErr "Block number is required" ∧
     dispatchRoute "get_block_header" [v] = dispatchRoute "get_block_header" []) ∧
    (dispatchRoute "get_block" [v] = .throwErr "Block number is required" ∧
     dispatchRoute "get_block" [v] = dispatchRoute "get_block" []) ∧
    (dispatchRoute "get_ops_in_block" [v] = .throwErr "Block number is required" ∧
     dispatchRoute "get_ops_in_block" [v] = dispatchRoute "get_ops_in_block" []) ∧
    (dispatchRoute "get_transaction" [v] = .throwErr "Transaction ID is required" ∧
     dispatchRoute "get_transaction" [v] = dispatchRoute "get_transaction" []) := by
  have h1 : dispatchRoute "get_block_header" [v] =
      if !truthy v then .throwErr "Block number is required"
      else .invoke "getBlockHeader" [v] := rfl
  have h2 : dispatchRoute "get_block" [v] =
      if !truthy v then .throwErr "Block number is required"
      else .invoke "getBlock" [v] := rfl
  have h3 : dispatchRoute "get_ops_in_block" [v] =
      if !truthy v then .throwErr "Block number is required"
      else .invoke "getOpsInBlock" [v, jsOr .jsUndefined (.b false)] := rfl
  have h4 : dispatchRoute "get_transaction" [v] =
      if !truthy v then .throwErr "Transaction ID is required"
      else .invoke "getTransaction" [v] := rfl
  rw [h1, h2, h3, h4, h]
  exact ⟨⟨rfl, rfl⟩, ⟨rfl, rfl⟩, ⟨rfl, rfl⟩, ⟨rfl, rfl⟩⟩

/-- Witness for the falsy-parameter theorem at the concrete falsy
values 0, null, false and the empty string. -/
theorem falsy_param_rejected_witness :
    (truthy (.n 0) = false ∧
     dispatchRoute "get_block_header" [.n 0] = .throwErr "Block number is required") ∧
    (truthy .null = false ∧
     dispatchRoute "get_block" [.null] = .throwErr "Block number is required") ∧
    (truthy (.b false) = false ∧
     dispatchRoute "get_ops_in_block" [.b false] = .throwErr "Block number is required") ∧
    (truthy (.s "") = false ∧
     dispatchRoute "get_transaction" [.s ""] = .throwErr "Transaction ID is required") :=
  ⟨⟨rfl, ((falsy_param_rejected (.n 0) rfl).1).1⟩,
   ⟨rfl, ((falsy_param_rejected .null rfl).2.1).1⟩,
   ⟨rfl, ((falsy_param_rejected (.b false) rfl).2.2.1).1⟩,
   ⟨rfl, ((falsy_param_rejected (.s "") rfl).2.2.2).1⟩⟩

/-- Over a list with pairwise distinct session ids, counting by one id
finds at most one match, exactly when some element matches. -/
theorem countP_sid_unique :
    ∀ (l : List Session), ((l.map Session.sid).Nodup) →
      ∀ (x : Nat) (q : Session → Bool),
        l.countP (fun s => decide (s.sid = x) && q s) =
          if l.any (fun s => decide (s.sid = x) && q s) then 1 else 0 := by
  intro l
  induction l with
  | nil => intro _ x q; simp
  | cons y rest ih =>
      intro hn x q
      have hn2 : y.sid ∉ rest.map Session.sid ∧ (rest.map Session.sid).Nodup := by
        simpa [List.nodup_cons] using hn
      rw [List.countP_cons, List.any_cons]
      cases hcase : (decide (y.sid = x) && q y)
      · rw [ih hn2.2 x q]
        simp [hcase]
      · have hyx : y.sid = x :=
          of_decide_eq_true ((Bool.and_eq_true _ _).mp hcase).1
        have hrest0 : rest.countP (fun s => decide (s.sid = x) && q s) = 0 := by
          rw [List.countP_eq_zero]
          intro s hs hP
          have hsx : s.sid = x :=
            of_decide_eq_true ((Bool.and_eq_true _ _).mp hP).1
          exact hn2.1 (List.mem_map.mpr ⟨s, hs, by rw [hsx, hyx]⟩)
        simp [hcase, hrest0]

/-- Over a list with pairwise distinct session ids containing c, a
search keyed by the id of c reduces to the predicate at c. -/
theorem any_sid_unique :
    ∀ (l : List Session), ((l.map Session.sid).Nodup) →
      ∀ (c : Session), c ∈ l → ∀ (q : Session → Bool),
        l.any (fun s => decide (s.sid = c.sid) && q s) = q c := by
  intro l hn c hc q
  cases hq : q c
  · refine Bool.eq_false_iff.mpr ?_
    intro hA
    obtain ⟨s, hs, hp⟩ := List.any_eq_true.mp hA
    have hsx : s.sid = c.sid :=
      of_decide_eq_true ((Bool.and_eq_true _ _).mp hp).1
    have hseq : s = c := List.inj_on_of_nodup_map hn hs hc hsx
    rw [hseq] at hp
    simp [hq] at hp
  · exact List.any_eq_true.mpr ⟨c, hc, by simp [hq]⟩

/-- Commuted form of a subscriber search. -/
theorem any_open_and_comm (l : List Session) (x : Nat) :
    l.any (fun s => s.isOpen && decide (s.sid = x)) =
      l.any (fun s => decide (s.sid = x) && s.isOpen) := by
  induction l with
  | nil => rfl
  | cons y rest ih => simp [List.any_cons, ih, Bool.and_comm]

/-- When every subscriber is an open client, searching the subscriber
set for the id of an open client ignores the openness test. -/
theorem subscribed_open_any (clients subs : List Session) (c : Session)
    (hnodupC : (clients.map Session.sid).Nodup)
    (hsub : ∀ s ∈ subs, s ∈ clients) (hc : c ∈ clients)
    (hopen : c.isOpen = true) :
    subs.any (fun s => decide (s.sid = c.sid) && s.isOpen) =
      subs.any (fun s => decide (s.sid = c.sid)) := by
  cases hA : subs.any (fun s => decide (s.sid = c.sid))
  · refine Bool.eq_false_iff.mpr ?_
    intro hL
    obtain ⟨s, hs, hp⟩ := List.any_eq_true.mp hL
    have h1 : decide (s.sid = c.sid) = true := ((Bool.and_eq_true _ _).mp hp).1
    have : subs.any (fun s => decide (s.sid = c.sid)) = true :=
      List.any_eq_true.mpr ⟨s, hs, h1⟩
    rw [hA] at this
    exact Bool.false_ne_true this
  · obtain ⟨s, hs, h1⟩ := List.any_eq_true.mp hA
    have hsid : s.sid = c.sid := of_decide_eq_true h1
    have hseq : s = c := List.inj_on_of_nodup_map hnodupC (hsub s hs) hc hsid
    refine List.any_eq_true.mpr ⟨s, hs, ?_⟩
    rw [hseq]
    simp [hopen]

/-- The subscription stage of the periodic fan-out fires exactly as
broadcastToSubscribers, also on an empty subscriber set. -/
theorem stage1_eq (subs : List Session) (F : Frame) :
    (if subs.length > 0 then broadcastToSubscribers subs F else ([], subs)) =
      broadcastToSubscribers subs F := by
  cases subs with
  | nil => rfl
  | cons y rest => rw [if_pos (by simp)]

/-- Counting the frames the subscription stage addresses to one id. -/
theorem stage1_countP (subs : List Session) (x : Nat) (F : Frame)
    (φ : Frame → Bool) (hn : (subs.map Session.sid).Nodup) :
    (broadcastToSubscribers subs F).1.countP
        (fun m => decide (m.1 = x) && φ m.2) =
      if φ F && subs.any (fun s => decide (s.sid = x) && s.isOpen) then 1 else 0 := by
  unfold broadcastToSubscribers
  rw [List.countP_map, List.countP_filter]
  cases hφ : φ F
  · rw [List.countP_eq_zero.mpr]
    · simp
    · intro s _
      simp [Function.comp, hφ]
  · have hcong : List.countP
        (fun s => ((fun m : Nat × Frame => decide (m.1 = x) && φ m.2) ∘
          (fun s : Session => (s.sid, F))) s && s.isOpen) subs =
        List.countP (fun s => decide (s.sid = x) && s.isOpen) subs :=
      List.countP_congr (fun s _ => by simp [Function.comp, hφ])
    rw [hcong, countP_sid_unique subs hn x (fun s => s.isOpen)]
    simp

/-- Counting the frames the legacy stage addresses to one id. -/
theorem legacy_countP (clients : List Session) (x : Nat) (F : Frame)
    (φ : Frame → Bool) (q : Session → Bool)
    (hn : (clients.map Session.sid).Nodup) :
    ((clients.filter q).map (fun d => (d.sid, F))).countP
        (fun m => decide (m.1 = x) && φ m.2) =
      if φ F && clients.any (fun s => decide (s.sid = x) && q s) then 1 else 0 := by
  rw [List.countP_map, List.countP_filter]
  cases hφ : φ F
  · rw [List.countP_eq_zero.mpr]
    · simp
    · intro s _
      simp [Function.comp, hφ]
  · have hcong : List.countP
        (fun s => ((fun m : Nat × Frame => decide (m.1 = x) && φ m.2) ∘
          (fun d : Session => (d.sid, F))) s && q s) clients =
        List.countP (fun s => decide (s.sid = x) && q s) clients :=
      List.countP_congr (fun s _ => by simp [Function.comp, hφ])
    rw [hcong, countP_sid_unique clients hn x q]
    simp

/-- Unfolded form of the two-stage periodic fan-out. -/
theorem periodicBroadcast_eq (clients subs : List Session) (gp : JVal) (now : Nat) :
    periodicBroadcast clients subs gp now =
      ((broadcastToSubscribers subs
          (subscriptionUpdateFrame "global_properties" gp now)).1 ++
        (clients.filter (fun d => d.isOpen &&
          !((broadcastToSubscribers subs
              (subscriptionUpdateFrame "global_properties" gp now)).2.any
             (fun s => decide (s.sid = d.sid))))).map
          (fun d => (d.sid, legacyBroadcastFrame gp now)),
       (broadcastToSubscribers subs
          (subscriptionUpdateFrame "global_properties" gp now)).2) := by
  unfold periodicBroadcast
  dsimp only []
  rw [stage1_eq]

/--
C8: on a detected head-height change, every open session receives
exactly one of the two frames for that change: a session in the
global-properties subscriber set receives the subscription_update
frame and is excluded from the legacy broadcast, and every other open
session receives exactly the legacy broadcast frame; no session
receives both.
-/
theorem periodic_broadcast_exactly_one
    (clients subs : List Session) (gp : JVal) (now : Nat) (c : Session)
    (hnodupC : (clients.map Session.sid).Nodup)
    (hnodupS : (subs.map Session.sid).Nodup)
    (hsub : ∀ s ∈ subs, s ∈ clients)
    (hc : c ∈ clients) (hopen : c.isOpen = true) :
    (periodicBroadcast clients subs gp now).1.countP
        (fun m => decide (m.1 = c.sid)) = 1 ∧
    (subs.any (fun s => decide (s.sid = c.sid)) = true →
      (periodicBroadcast clients subs gp now).1.countP
          (fun m => decide (m.1 = c.sid) &&
            frameTypeIs m.2 "subscription_update") = 1 ∧
      (periodicBroadcast clients subs gp now).1.countP
          (fun m => decide (m.1 = c.sid) && frameTypeIs m.2 "broadcast") = 0) ∧
    (subs.any (fun s => decide (s.sid = c.sid)) = false →
      (periodicBroadcast clients subs gp now).1.countP
          (fun m => decide (m.1 = c.sid) && frameTypeIs m.2 "broadcast") = 1 ∧
      (periodicBroadcast clients subs gp now).1.countP
          (fun m => decide (m.1 = c.sid) &&
            frameTypeIs m.2 "subscription_update") = 0) := by
  have hSO := subscribed_open_any clients subs c hnodupC hsub hc hopen
  have hqc : (c.isOpen &&
      !((broadcastToSubscribers subs
          (subscriptionUpdateFrame "global_properties" gp now)).2.any
         (fun s => decide (s.sid = c.sid)))) =
      !(subs.any (fun s => decide (s.sid = c.sid))) := by
    show (c.isOpen && !((subs.filter (fun s => s.isOpen)).any
      (fun s => decide (s.sid = c.sid)))) = _
    rw [hopen, List.any_filter, any_open_and_comm, hSO]
    simp
  have key : ∀ φ : Frame → Bool,
      (periodicBroadcast clients subs gp now).1.countP
          (fun m => decide (m.1 = c.sid) && φ m.2) =
        (if φ (subscriptionUpdateFrame "global_properties" gp now) &&
            subs.any (fun s => decide (s.sid = c.sid)) then 1 else 0) +
        (if φ (legacyBroadcastFrame gp now) &&
            !(subs.any (fun s => decide (s.sid = c.sid))) then 1 else 0) := by
    intro φ
    rw [periodicBroadcast_eq]
    dsimp only []
    rw [List.countP_append,
      stage1_countP subs c.sid (subscriptionUpdateFrame "global_properties" gp now) φ hnodupS,
      legacy_countP clients c.sid (legacyBroadcastFrame gp now) φ _ hnodupC,
      any_sid_unique clients hnodupC c hc, hqc, hSO]
  have hsub1 : frameTypeIs (subscriptionUpdateFrame "global_properties" gp now)
      "subscription_update" = true := rfl
  have hsub2 : frameTypeIs (subscriptionUpdateFrame "global_properties" gp now)
      "broadcast" = false := rfl
  have hleg1 : frameTypeIs (legacyBroadcastFrame gp now) "broadcast" = true := rfl
  have hleg2 : frameTypeIs (legacyBroadcastFrame gp now)
      "subscription_update" = false := rfl
  have ktot : (periodicBroadcast clients subs gp now).1.countP
      (fun m => decide (m.1 = c.sid)) =
      (periodicBroadcast clients subs gp now).1.countP
        (fun m => decide (m.1 = c.sid) && (fun _ : Frame => true) m.2) :=
    List.countP_congr (fun m _ => by simp)
  cases hsubd : subs.any (fun s => decide (s.sid = c.sid))
  · refine ⟨?_, ?_, ?_⟩
    · rw [ktot, key (fun _ => true)]
      simp [hsubd]
    · intro hcontra
      exact absurd hcontra (by simp)
    · intro _
      constructor
      · rw [key (fun f => frameTypeIs f "broadcast")]
        simp [hsubd, hleg1, hsub2]
      · rw [key (fun f => frameTypeIs f "subscription_update")]
        simp [hsubd, hsub1, hleg2]
  · refine ⟨?_, ?_, ?_⟩
    · rw [ktot, key (fun _ => true)]
      simp [hsubd]
    · intro _
      constructor
      · rw [key (fun f => frameTypeIs f "subscription_update")]
        simp [hsubd, hsub1, hleg2]
      · rw [key (fun f => frameTypeIs f "broadcast")]
        simp [hsubd, hsub2, hleg1]
    · intro hcontra
      exact absurd hcontra (by simp)

/-- Witness for the exactly-once broadcast theorem: two open clients,
the first subscribed; the subscriber gets one subscription update and
no legacy frame, the other exactly one legacy frame. -/
theorem periodic_broadcast_exactly_one_witness :
    (([Session.mk 1 true, Session.mk 2 true].map Session.sid).Nodup ∧
     ([Session.mk 1 true].map Session.sid).Nodup ∧
     (∀ s ∈ [Session.mk 1 true], s ∈ [Session.mk 1 true, Session.mk 2 true]) ∧
     Session.mk 1 true ∈ [Session.mk 1 true, Session.mk 2 true] ∧
     Session.mk 2 true ∈ [Session.mk 1 true, Session.mk 2 true]) ∧
    (periodicBroadcast [Session.mk 1 true, Session.mk 2 true]
        [Session.mk 1 true] (.n 9) 4).1.countP
        (fun m => decide (m.1 = (Session.mk 1 true).sid) &&
          frameTypeIs m.2 "subscription_update") = 1 ∧
    (periodicBroadcast [Session.mk 1 true, Session.mk 2 true]
        [Session.mk 1 true] (.n 9) 4).1.countP
        (fun m => decide (m.1 = (Session.mk 1 true).sid) &&
          frameTypeIs m.2 "broadcast") = 0 ∧
    (periodicBroadcast [Session.mk 1 true, Session.mk 2 true]
        [Session.mk 1 true] (.n 9) 4).1.countP
        (fun m => decide (m.1 = (Session.mk 2 true).sid) &&
          frameTypeIs m.2 "broadcast") = 1 ∧
    (periodicBroadcast [Session.mk 1 true, Session.mk 2 true]
        [Session.mk 1 true] (.n 9) 4).1.countP
        (fun m => decide (m.1 = (Session.mk 2 true).sid)) = 1 :=
  ⟨⟨by decide, by decide, by decide, by decide, by decide⟩,
   ((periodic_broadcast_exactly_one [Session.mk 1 true, Session.mk 2 true]
      [Session.mk 1 true] (.n 9) 4 (Session.mk 1 true)
      (by decide) (by decide) (by decide) (by decide) rfl).2.1 (by decide)).1,
   ((periodic_broadcast_exactly_one [Session.mk 1 true, Session.mk 2 true]
      [Session.mk 1 true] (.n 9) 4 (Session.mk 1 true)
      (by decide) (by decide) (by decide) (by decide) rfl).2.1 (by decide)).2,
   ((periodic_broadcast_exactly_one [Session.mk 1 true, Session.mk 2 true]
      [Session.mk 1 true] (.n 9) 4 (Session.mk 2 true)
      (by decide) (by decide) (by decide) (by decide) rfl).2.2 (by decide)).1,
   (periodic_broadcast_exactly_one [Session.mk 1 true, Session.mk 2 true]
      [Session.mk 1 true] (.n 9) 4 (Session.mk 2 true)
      (by decide) (by decide) (by decide) (by decide) rfl).1⟩

/-- The comparator is reflexive at zero. -/
theorem nodeCmp_refl (a : NodeHealth) : nodeCmp a a = 0 := by
  unfold nodeCmp
  simp

/-- The comparator order is total. -/
theorem nodeCmp_total (a b : NodeHealth) : nodeCmp a b ≤ 0 ∨ nodeCmp b a ≤ 0 := by
  unfold nodeCmp
  cases ha : a.healthy <;> cases hb : b.healthy <;>
    simp [boolToInt] <;> split_ifs <;> omega

/-- The comparator order is transitive. -/
theorem nodeCmp_trans (a b c : NodeHealth)
    (hab : nodeCmp a b ≤ 0) (hbc : nodeCmp b c ≤ 0) : nodeCmp a c ≤ 0 := by
  unfold nodeCmp at *
  cases ha : a.healthy <;> cases hb : b.healthy <;> cases hc : c.healthy <;>
    simp_all [boolToInt] <;> split_ifs at * <;> omega

instance : IsTotal (Nat × NodeHealth) nodeLe :=
  ⟨fun a b => nodeCmp_total a.2 b.2⟩

instance : IsTrans (Nat × NodeHealth) nodeLe :=
  ⟨fun a b c hab hbc => nodeCmp_trans a.2 b.2 c.2 hab hbc⟩

/-- Membership in an index-enumerated list locates the element. -/
theorem enumIdxFrom_mem {l : List α} :
    ∀ {i k : Nat} {a : α}, (k, a) ∈ enumIdxFrom i l →
      i ≤ k ∧ l[k - i]? = some a := by
  induction l with
  | nil => intro i k a h; simp [enumIdxFrom] at h
  | cons x xs ih =>
      intro i k a h
      simp only [enumIdxFrom, List.mem_cons, Prod.mk.injEq] at h
      rcases h with ⟨hk, ha⟩ | h
      · subst hk; subst ha
        exact ⟨le_refl _, by simp⟩
      · obtain ⟨hik, hget⟩ := ih h
        refine ⟨by omega, ?_⟩
        have hki : k - i = (k - (i + 1)) + 1 := by omega
        rw [hki, List.getElem?_cons_succ]
        exact hget

/-- Reading back the modified index. -/
theorem modifyIdx_self (f : α → α) :
    ∀ (n : Nat) (l : List α), (modifyIdx f n l)[n]? = (l[n]?).map f := by
  intro n
  induction n with
  | zero => intro l; cases l <;> simp [modifyIdx]
  | succ m ih => intro l; cases l <;> simp [modifyIdx, ih]

/-- The endpoint just marked as failed is never an eligible survivor. -/
theorem eligibleNode_markUnhealthy (now : Int) (h : NodeHealth) :
    eligibleNode now (markUnhealthy now h) = false := by
  show (false || decide (now - tsVal (some now) > 60000)) = false
  rw [Bool.false_or]
  exact decide_eq_false (by simp only [tsVal, Option.getD_some]; omega)

/-- No failover candidate carries the index of the failing endpoint. -/
theorem failoverCandidates_ne_cur (now : Int) (nodes : List NodeHealth)
    (cur : Nat) (p : Nat × NodeHealth)
    (hp : p ∈ failoverCandidates now nodes cur) : p.1 ≠ cur := by
  intro hEq
  unfold failoverCandidates enumIdx at hp
  have hmem := List.mem_filter.mp hp
  have helig : eligibleNode now p.2 = true := hmem.2
  have hmem2 : (p.1, p.2) ∈ enumIdxFrom 0 (modifyIdx (markUnhealthy now) cur nodes) := by
    simpa using hmem.1
  obtain ⟨-, hget⟩ := enumIdxFrom_mem hmem2
  rw [Nat.sub_zero, hEq, modifyIdx_self] at hget
  cases horig : nodes[cur]? with
  | none => rw [horig] at hget; simp at hget
  | some orig =>
      rw [horig] at hget
      have hget2 : some (markUnhealthy now orig) = some p.2 := hget
      have : p.2 = markUnhealthy now orig := by
        injection hget2 with h1
        exact h1.symm
      rw [this, eligibleNode_markUnhealthy] at helig
      exact Bool.false_ne_true helig

/--
C4: switchToHealthyNode filters the (marked) endpoints to those
healthy or whose last error is older than 60 s, ranks the survivors by
healthy first, then lower error count, then lower average latency, and
selects the first; with no survivor the current index is retained (and
the cache kept); and since the failing endpoint is first marked
unhealthy with its last error set to now, any selection differs from
the endpoint that just failed.  An actual selection drops the whole
cache.
-/
theorem switchToHealthyNode_selection (now : Int) (nodes : List NodeHealth)
    (cur : Nat) (c : Cache) :
    (failoverCandidates now nodes cur = [] →
       switchToHealthyNode now nodes cur c =
         SwitchResult.mk (modifyIdx (markUnhealthy now) cur nodes) cur c) ∧
    (failoverCandidates now nodes cur ≠ [] →
       ∃ best,
         (switchToHealthyNode now nodes cur c).index = best.1 ∧
         best ∈ failoverCandidates now nodes cur ∧
         (∀ p ∈ failoverCandidates now nodes cur, nodeLe best p) ∧
         best.1 ≠ cur ∧
         (switchToHealthyNode now nodes cur c).nodes =
           modifyIdx (markUnhealthy now) cur nodes ∧
         (switchToHealthyNode now nodes cur c).cache = clearCache c) := by
  constructor
  · intro hcand
    unfold switchToHealthyNode
    rw [hcand]
    rfl
  · intro hcand
    cases hsort : List.insertionSort nodeLe (failoverCandidates now nodes cur) with
    | nil =>
        exfalso
        apply hcand
        have hperm := List.perm_insertionSort nodeLe (failoverCandidates now nodes cur)
        rw [hsort] at hperm
        exact (List.Perm.nil_eq hperm).symm
    | cons best rest =>
        have hperm := List.perm_insertionSort nodeLe (failoverCandidates now nodes cur)
        rw [hsort] at hperm
        have hmem : best ∈ failoverCandidates now nodes cur :=
          hperm.mem_iff.mp (List.mem_cons_self best rest)
        have hsorted := List.sorted_insertionSort nodeLe (failoverCandidates now nodes cur)
        rw [hsort] at hsorted
        refine ⟨best, ?_, hmem, ?_, failoverCandidates_ne_cur now nodes cur best hmem, ?_, ?_⟩
        · unfold switchToHealthyNode
          rw [hsort]
        · intro p hp
          have hpmem : p ∈ best :: rest := hperm.symm.mem_iff.mp hp
          rcases List.mem_cons.mp hpmem with hpe | hpr
          · rw [hpe]
            show nodeCmp best.2 best.2 ≤ 0
            rw [nodeCmp_refl]
          · exact List.rel_of_sorted_cons hsorted p hpr
        · unfold switchToHealthyNode
          rw [hsort]
        · unfold switchToHealthyNode
          rw [hsort]

/-- Witness for the failover-selection theorem: two endpoints, the
first fails; the filter keeps only the second and the pool switches to
it, clearing the cache. -/
theorem switchToHealthyNode_selection_witness :
    failoverCandidates 100000
      [NodeHealth.initial "https://api.steemit.com/" 0,
       NodeHealth.initial "https://api.moecki.online/" 0] 0 ≠ [] ∧
    ∃ best,
      (switchToHealthyNode 100000
        [NodeHealth.initial "https://api.steemit.com/" 0,
         NodeHealth.initial "https://api.moecki.online/" 0] 0 Cache.initial).index = best.1 ∧
      best ∈ failoverCandidates 100000
        [NodeHealth.initial "https://api.steemit.com/" 0,
         NodeHealth.initial "https://api.moecki.online/" 0] 0 ∧
      (∀ p ∈ failoverCandidates 100000
        [NodeHealth.initial "https://api.steemit.com/" 0,
         NodeHealth.initial "https://api.moecki.online/" 0] 0, nodeLe best p) ∧
      best.1 ≠ 0 ∧
      (switchToHealthyNode 100000
        [NodeHealth.initial "https://api.steemit.com/" 0,
         NodeHealth.initial "https://api.moecki.online/" 0] 0 Cache.initial).nodes =
        modifyIdx (markUnhealthy 100000) 0
          [NodeHealth.initial "https://api.steemit.com/" 0,
           NodeHealth.initial "https://api.moecki.online/" 0] ∧
      (switchToHealthyNode 100000
        [NodeHealth.initial "https://api.steemit.com/" 0,
         NodeHealth.initial "https://api.moecki.online/" 0] 0 Cache.initial).cache =
        clearCache Cache.initial :=
  ⟨by decide,
   (switchToHealthyNode_selection 100000
     [NodeHealth.initial "https://api.steemit.com/" 0,
      NodeHealth.initial "https://api.moecki.online/" 0] 0 Cache.initial).2
     (by decide)⟩

/-- Witness for the cache-size theorem: a store into a full map of
1000 entries evicts the oldest entry first. -/
theorem cache_map_size_invariant_witness :
    ((("k0", CacheEntry.mk .null 0) ::
        List.replicate 999 ("k1", CacheEntry.mk .null 0) : JsMap)).length ≥ maxCacheSize ∧
    setCacheItem (("k0", CacheEntry.mk .null 0) ::
        List.replicate 999 ("k1", CacheEntry.mk .null 0)) "a" (.n 1) 7 =
      jsMapSet (List.replicate 999 ("k1", CacheEntry.mk .null 0)) "a"
        (CacheEntry.mk (.n 1) 7) :=
  ⟨by simp only [List.length_cons, List.length_replicate, maxCacheSize]; omega,
   (cache_map_size_invariant []).2.2.2 ("k0", CacheEntry.mk .null 0)
     (List.replicate 999 ("k1", CacheEntry.mk .null 0)) "a" (.n 1) 7
     (by simp only [List.length_cons, List.length_replicate, maxCacheSize]; omega)⟩

/--
C2, counterexample: not every error frame has the documented shape
with id, type, error and method fields.  The rate-limit error frame
(here at lastReset 0) has neither an id nor a method field; the
queue-full frame has no id; the invalid-JSON frame and the
missing-method frame have no method field.
-/
theorem error_frame_shape_counterexample :
    hasField (rateLimitErrorFrame 0) "id" = false ∧
    hasField (rateLimitErrorFrame 0) "method" = false ∧
    hasField queueFullFrame "id" = false ∧
    hasField queueFullFrame "method" = false ∧
    hasField (invalidJsonFrame "Unexpected token") "method" = false ∧
    hasField (invalidJsonFrame "Unexpected token") "id" = false ∧
    hasField (missingMethodFrame (.n 7)) "method" = false := by
  refine ⟨rfl, rfl, rfl, rfl, rfl, rfl, rfl⟩

/-- The value stored by jsOr is never the dropped undefined. -/
theorem isUndef_jsOr (v : JVal) (d : JVal) (hd : isUndef d = false) :
    isUndef (jsOr v d) = false := by
  unfold jsOr
  cases h : truthy v
  · simpa using hd
  · simp only [if_true]
    cases v
    case jsUndefined => exact absurd h (by simp [truthy])
    all_goals rfl

/--
C2, amended: every error kind surfaced to a client sends a single
frame with type error and a string error field and never closes the
connection, but only the dispatcher catch-path frames
(unsupported-method, missing-argument, upstream-failure) carry the
full shape with id echoed-or-unknown and method
echoed-or-unknown_method; the rate-limited, queue-full and
invalid-frame errors carry neither id nor method (rate-limited names
the reset instant instead), and the missing-method frame carries id
but no method.
-/
theorem error_frames_shape (id method : JVal) (errMsg msg : String)
    (lastReset : Nat) (st : ConnState) (now q : Nat) (p : Except String JVal) :
    (frameTypeIs (rateLimitErrorFrame lastReset) "error" = true ∧
     hasField (rateLimitErrorFrame lastReset) "error" = true ∧
     hasField (rateLimitErrorFrame lastReset) "id" = false ∧
     hasField (rateLimitErrorFrame lastReset) "method" = false ∧
     fieldValue (rateLimitErrorFrame lastReset) "rateLimitReset" =
       some (.time (lastReset + rateWindowMs))) ∧
    (frameTypeIs queueFullFrame "error" = true ∧
     hasField queueFullFrame "error" = true ∧
     hasField queueFullFrame "id" = false ∧
     hasField queueFullFrame "method" = false) ∧
    (frameTypeIs (invalidJsonFrame msg) "error" = true ∧
     hasField (invalidJsonFrame msg) "error" = true ∧
     hasField (invalidJsonFrame msg) "id" = false ∧
     hasField (invalidJsonFrame msg) "method" = false) ∧
    (frameTypeIs (missingMethodFrame id) "error" = true ∧
     hasField (missingMethodFrame id) "error" = true ∧
     hasField (missingMethodFrame id) "method" = false) ∧
    (frameTypeIs (catchErrorFrame id method errMsg) "error" = true ∧
     fieldValue (catchErrorFrame id method errMsg) "id" =
       some (jsOr id (.s "unknown")) ∧
     fieldValue (catchErrorFrame id method errMsg) "error" = some (.s errMsg) ∧
     fieldValue (catchErrorFrame id method errMsg) "method" =
       some (jsOr method (.s "unknown_method")) ∧
     hasField (catchErrorFrame id method errMsg) "id" = true ∧
     hasField (catchErrorFrame id method errMsg) "method" = true) ∧
    (hasClose (onMessage st now q p).2 = false ∧
     hasClose (missingMethodActions id) = false ∧
     hasClose (catchPathActions id method errMsg) = false) := by
  have hid : isUndef (jsOr id (.s "unknown")) = false :=
    isUndef_jsOr id (.s "unknown") rfl
  have hmethod : isUndef (jsOr method (.s "unknown_method")) = false :=
    isUndef_jsOr method (.s "unknown_method") rfl
  have hs : ∀ x, isUndef (JVal.s x) = false := fun _ => rfl
  have ht : ∀ x, isUndef (JVal.time x) = false := fun _ => rfl
  refine ⟨⟨rfl, rfl, rfl, rfl, rfl⟩, ⟨rfl, rfl, rfl, rfl⟩, ⟨rfl, rfl, rfl, rfl⟩,
    ⟨?_, ?_, ?_⟩, ⟨?_, ?_, ?_, ?_, ?_, ?_⟩, ?_, rfl, rfl⟩
  · cases hu : isUndef id <;>
      simp [frameTypeIs, fieldValue, serializedFields, missingMethodFrame, hs, hu]
  · cases hu : isUndef id <;>
      simp [hasField, serializedFields, missingMethodFrame, hs, hu]
  · cases hu : isUndef id <;>
      simp [hasField, serializedFields, missingMethodFrame, hs, hu]
  · simp [frameTypeIs, fieldValue, serializedFields, catchErrorFrame, hid, hmethod, hs]
  · simp [fieldValue, serializedFields, catchErrorFrame, hid, hmethod, hs]
  · simp [fieldValue, serializedFields, catchErrorFrame, hid, hmethod, hs]
  · simp [fieldValue, serializedFields, catchErrorFrame, hid, hmethod, hs]
  · simp [hasField, serializedFields, catchErrorFrame, hid, hmethod, hs]
  · simp [hasField, serializedFields, catchErrorFrame, hid, hmethod, hs]
  · unfold onMessage
    dsimp only []
    repeat' split
    all_goals rfl

/-- Witness for the error-frame theorem at concrete inputs, including
the connection-capacity path, which does close the socket — showing
the close action is expressible and error frames never produce it. -/
theorem error_frames_shape_witness :
    fieldValue (catchErrorFrame .jsUndefined .jsUndefined "boom") "id" = some (.s "unknown") ∧
    fieldValue (catchErrorFrame .jsUndefined .jsUndefined "boom") "method" =
      some (.s "unknown_method") ∧
    hasClose (onMessage (ConnState.mk 0 0) 5 0 (.error "bad json")).2 = false ∧
    hasClose (onConnection 101) = true :=
  ⟨by have h := (error_frames_shape .jsUndefined .jsUndefined "boom" "m" 0
        (ConnState.mk 0 0) 5 0 (.error "bad json")).2.2.2.2.1
      exact h.2.1,
   by have h := (error_frames_shape .jsUndefined .jsUndefined "boom" "m" 0
        (ConnState.mk 0 0) 5 0 (.error "bad json")).2.2.2.2.1
      exact h.2.2.2.1,
   (error_frames_shape .jsUndefined .jsUndefined "boom" "m" 0
     (ConnState.mk 0 0) 5 0 (.error "bad json")).2.2.2.2.2.1,
   rfl⟩

/-- Accepting step of the message handler: no window reset, under the
cap, queue not full. -/
theorem onMessage_accept (c r now q : Nat) (v : JVal)
    (hreset : ¬ now - r > rateWindowMs)
    (hcap : c + 1 ≤ requestsPerMinute)
    (hq : q < maxQueueSize) :
    onMessage (ConnState.mk c r) now q (.ok v) =
      (ConnState.mk (c + 1) r, [.enqueue]) := by
  unfold onMessage
  simp only [if_neg hreset, if_neg (by omega : ¬ c + 1 > requestsPerMinute), if_pos hq]

/-- Accepting step of the message handler across a window reset. -/
theorem onMessage_accept_reset (c r now q : Nat) (v : JVal)
    (hreset : now - r > rateWindowMs)
    (hq : q < maxQueueSize) :
    onMessage (ConnState.mk c r) now q (.ok v) = (ConnState.mk 1 now, [.enqueue]) := by
  unfold onMessage
  simp only [if_pos hreset,
    if_neg (by unfold requestsPerMinute; omega : ¬ (0 + 1 > requestsPerMinute)),
    if_pos hq]

/-- Rejecting step of the message handler: over the cap with no reset. -/
theorem onMessage_reject (c r now q : Nat) (p : Except String JVal)
    (hreset : ¬ now - r > rateWindowMs)
    (hcap : c + 1 > requestsPerMinute) :
    onMessage (ConnState.mk c r) now q p =
      (ConnState.mk (c + 1) r, [.send (rateLimitErrorFrame r)]) := by
  unfold onMessage
  simp only [if_neg hreset, if_pos hcap]

/-- admitRun distributes over concatenation of traces. -/
theorem admitRun_append (xs ys : List Nat) :
    ∀ st, admitRun st (xs ++ ys) =
      ((admitRun (admitRun st xs).1 ys).1,
       (admitRun st xs).2 ++ (admitRun (admitRun st xs).1 ys).2) := by
  induction xs with
  | nil => intro st; simp [admitRun]
  | cons x xs ih => intro st; simp [admitRun, ih]

/-- Number of frames a run admits within one fixed window: when every
arrival is within the window of the current reset instant, the counter
never resets, and exactly the frames up to the cap are admitted. -/
theorem admitRun_fixed_window_count (ts : List Nat) :
    ∀ c r, (∀ t ∈ ts, t - r ≤ rateWindowMs) →
      (admitRun (ConnState.mk c r) ts).2.countP (fun x => x.2) =
        min requestsPerMinute (c + ts.length) - min requestsPerMinute c := by
  induction ts with
  | nil => intro c r _; simp [admitRun]
  | cons t ts ih =>
      intro c r h
      have ht : ¬ t - r > rateWindowMs := by
        have := h t (List.mem_cons_self t ts)
        omega
      have hrest : ∀ u ∈ ts, u - r ≤ rateWindowMs :=
        fun u hu => h u (List.mem_cons_of_mem t hu)
      by_cases hc : c + 1 > requestsPerMinute
      · have hstep := onMessage_reject c r t 0 (.ok (.obj [])) ht hc
        have := ih (c + 1) r hrest
        simp only [admitRun, hstep, List.countP_cons] at *
        simp only [admitsEnqueue, List.any_cons, List.any_nil] at *
        simp only [this]
        unfold requestsPerMinute at *
        simp
        omega
      · have hstep := onMessage_accept c r t 0 (.obj [])
          ht (by omega) (by unfold maxQueueSize; omega)
        have := ih (c + 1) r hrest
        simp only [admitRun, hstep, List.countP_cons] at *
        simp only [admitsEnqueue, List.any_cons, List.any_nil] at *
        simp only [this]
        unfold requestsPerMinute at *
        simp
        omega

/-- A segment of a trace arriving at one instant inside the window,
with the counter under the cap, is admitted wholesale. -/
theorem admitRun_replicate (k : Nat) :
    ∀ c, c + k ≤ requestsPerMinute →
      admitRun (ConnState.mk c 0) (List.replicate k 60000) =
        (ConnState.mk (c + k) 0, List.replicate k ((60000 : Nat), true)) := by
  induction k with
  | zero => intro c _; simp [admitRun]
  | succ k ih =>
      intro c hc
      rw [List.replicate_succ]
      have hstep := onMessage_accept c 0 60000 0 (.obj [])
        (by unfold rateWindowMs; omega) (by omega)
        (by unfold maxQueueSize; omega)
      simp only [admitRun, hstep]
      have := ih (c + 1) (by omega)
      simp only [this, List.replicate_succ]
      simp [admitsEnqueue]
      omega

/-- countP over a replicated list. -/
theorem countP_replicate (p : α → Bool) (n : Nat) (a : α) :
    (List.replicate n a).countP p = if p a then n else 0 := by
  induction n with
  | zero => simp
  | succ n ih =>
      rw [List.replicate_succ, List.countP_cons, ih]
      cases h : p a <;> simp [h]

/-- Appending one larger element keeps a constant trace nondecreasing. -/
theorem nondecr_replicate_snoc (a b : Nat) (hab : a ≤ b) :
    ∀ n, nondecr (List.replicate n a ++ [b]) = true := by
  intro n
  induction n with
  | zero => simp [nondecr]
  | succ n ih =>
      rw [List.replicate_succ]
      cases n with
      | zero => simp [nondecr, hab]
      | succ m =>
          rw [List.replicate_succ]
          rw [List.replicate_succ] at ih
          simp only [List.cons_append] at *
          unfold nondecr
          simp [ih]

/--
C1, counterexample: the rate limiter is not a sliding 60-second
window.  On the nondecreasing arrival trace of 2000 frames at instant
60000 followed by one frame at instant 60001 (connection opened at
instant 0), all 2001 frames are admitted to the dispatcher, and all of
them fall inside the single 60-second window starting at instant 1 —
exceeding the cap of 2000 for that window, because the fixed window
resets at instant 60001.
-/
theorem rate_limit_not_sliding_counterexample :
    windowAdmitted
      (admitRun (ConnState.mk 0 0) (List.replicate 2000 60000 ++ [60001])).2 1 = 2001 ∧
    2001 > requestsPerMinute ∧
    nondecr (List.replicate 2000 60000 ++ [60001]) = true := by
  have hseg := admitRun_replicate 2000 0 (by unfold requestsPerMinute; omega)
  have happ := admitRun_append (List.replicate 2000 60000) [60001] (ConnState.mk 0 0)
  rw [hseg] at happ
  have hlast : admitRun (ConnState.mk (0 + 2000) 0) [60001] =
      (ConnState.mk 1 60001, [((60001 : Nat), true)]) := by
    have hstep := onMessage_accept_reset (0 + 2000) 0 60001 0 (.obj [])
      (by unfold rateWindowMs; omega) (by unfold maxQueueSize; omega)
    simp [admitRun, hstep, admitsEnqueue]
  rw [hlast] at happ
  refine ⟨?_, by unfold requestsPerMinute; omega, nondecr_replicate_snoc 60000 60001 (by omega) 2000⟩
  rw [happ]
  unfold windowAdmitted
  rw [List.countP_append, countP_replicate]
  simp [rateWindowMs]

/--
C1, amended: the per-session rate limit is a fixed 60-second window
anchored at lastReset (re-anchored when a frame arrives more than 60 s
after it): when every frame of a trace arrives within the window of
the current anchor, at most requestsPerMinute = 2000 frames are
admitted to the dispatcher; and any frame beyond the cap receives the
rate-limit error frame naming the reset instant lastReset + 60000 ms
and is not enqueued.
-/
theorem rate_limit_fixed_window (st : ConnState) (now q : Nat)
    (p : Except String JVal) :
    (∀ (c r : Nat) (ts : List Nat), (∀ t ∈ ts, t - r ≤ rateWindowMs) →
       (admitRun (ConnState.mk c r) ts).2.countP (fun x => x.2) ≤ requestsPerMinute) ∧
    (¬ now - st.lastReset > rateWindowMs →
     st.messageCount + 1 > requestsPerMinute →
       onMessage st now q p =
         (ConnState.mk (st.messageCount + 1) st.lastReset,
          [.send (rateLimitErrorFrame st.lastReset)]) ∧
       fieldValue (rateLimitErrorFrame st.lastReset) "rateLimitReset" =
         some (.time (st.lastReset + rateWindowMs)) ∧
       admitsEnqueue (onMessage st now q p).2 = false) := by
  constructor
  · intro c r ts hts
    rw [admitRun_fixed_window_count ts c r hts]
    omega
  · obtain ⟨cc, rr⟩ := st
    intro hreset hcap
    refine ⟨onMessage_reject cc rr now q p hreset hcap, rfl, ?_⟩
    rw [onMessage_reject cc rr now q p hreset hcap]
    rfl

/-- Witness for the fixed-window theorem: a two-frame in-window trace
stays under the cap, and the 2001st frame of a window is rejected with
the reset instant and not enqueued. -/
theorem rate_limit_fixed_window_witness :
    (∀ t ∈ [(5 : Nat), 10], t - 0 ≤ rateWindowMs) ∧
    (admitRun (ConnState.mk 0 0) [5, 10]).2.countP (fun x => x.2) ≤ requestsPerMinute ∧
    (¬ (30000 : Nat) - (ConnState.mk 2000 0).lastReset > rateWindowMs) ∧
    ((ConnState.mk 2000 0).messageCount + 1 > requestsPerMinute) ∧
    onMessage (ConnState.mk 2000 0) 30000 0 (.ok (.obj [])) =
      (ConnState.mk 2001 0, [.send (rateLimitErrorFrame 0)]) ∧
    admitsEnqueue (onMessage (ConnState.mk 2000 0) 30000 0 (.ok (.obj []))).2 = false :=
  ⟨by decide, (rate_limit_fixed_window (ConnState.mk 2000 0) 30000 0
      (.ok (.obj []))).1 0 0 [5, 10] (by decide),
   by decide, by decide,
   ((rate_limit_fixed_window (ConnState.mk 2000 0) 30000 0
      (.ok (.obj []))).2 (by decide) (by decide)).1,
   ((rate_limit_fixed_window (ConnState.mk 2000 0) 30000 0
      (.ok (.obj []))).2 (by decide) (by decide)).2.2⟩

/--
C10: the error-path failover switchNode clears only the head-state and
witness singleton slots and their timestamps and leaves the three
bounded per-block maps unchanged, while clearCache (invoked by
switchToHealthyNode on an actual selection) drops every cache layer.
-/
theorem switchNode_clears_only_singleton_slots (cur : Nat) (c : Cache) :
    ((switchNode cur c).2.blockHeaders = c.blockHeaders ∧
     (switchNode cur c).2.blocks = c.blocks ∧
     (switchNode cur c).2.operations = c.operations) ∧
    ((switchNode cur c).2.globalProperties = none ∧
     (switchNode cur c).2.activeWitnesses = none ∧
     (switchNode cur c).2.lastGlobalUpdate = 0 ∧
     (switchNode cur c).2.lastWitnessUpdate = 0) ∧
    ((clearCache c).blockHeaders = [] ∧
     (clearCache c).blocks = [] ∧
     (clearCache c).operations = [] ∧
     (clearCache c).globalProperties = none ∧
     (clearCache c).activeWitnesses = none ∧
     (clearCache c).lastGlobalUpdate = 0 ∧
     (clearCache c).lastWitnessUpdate = 0) := by
  refine ⟨⟨rfl, rfl, rfl⟩, ⟨rfl, rfl, rfl, rfl⟩, rfl, rfl, rfl, rfl, rfl, rfl, rfl⟩

/--
C3: callSteemAPI makes at most 3 attempts; after each failed non-final
attempt it performs a failover and sleeps attempt * 1000 ms; a success
stops the loop; and when the final attempt fails its upstream error is
propagated unchanged.
-/
theorem callSteemAPI_retry_spec (outcome : Nat → Except String JVal) :
    countCalls (callSteemAPI outcome).1 ≤ 3 ∧
    (∀ v, outcome 1 = .ok v → callSteemAPI outcome = ([.call 1], .ok v)) ∧
    (∀ e1 v, outcome 1 = .error e1 → outcome 2 = .ok v →
      callSteemAPI outcome = ([.call 1, .failover, .sleep 1000, .call 2], .ok v)) ∧
    (∀ e1 e2 v, outcome 1 = .error e1 → outcome 2 = .error e2 → outcome 3 = .ok v →
      callSteemAPI outcome =
        ([.call 1, .failover, .sleep 1000, .call 2, .failover, .sleep 2000, .call 3],
         .ok v)) ∧
    (∀ e1 e2 e3, outcome 1 = .error e1 → outcome 2 = .error e2 → outcome 3 = .error e3 →
      callSteemAPI outcome =
        ([.call 1, .failover, .sleep 1000, .call 2, .failover, .sleep 2000, .call 3],
         .error e3)) := by
  have master :
      callSteemAPI outcome =
        match outcome 1 with
        | .ok v => ([.call 1], .ok v)
        | .error _ =>
            match outcome 2 with
            | .ok v => ([.call 1, .failover, .sleep 1000, .call 2], .ok v)
            | .error _ =>
                ([.call 1, .failover, .sleep 1000, .call 2, .failover, .sleep 2000,
                  .call 3], outcome 3) := by
    show callFrom outcome 1 3 = _
    rw [callFrom_step outcome 1 1]
    rcases h1 : outcome 1 with e1 | v1
    · rw [callFrom_step outcome 2 0, callFrom_last outcome 3]
      rcases h2 : outcome 2 with e2 | v2 <;> rfl
    · rfl
  refine ⟨?_, ?_, ?_, ?_, ?_⟩
  · rw [master]
    rcases outcome 1 with e1 | v1
    · rcases outcome 2 with e2 | v2 <;> simp [countCalls]
    · simp [countCalls]
  · intro v h1; rw [master, h1]
  · intro e1 v h1 h2; rw [master, h1, h2]
  · intro e1 e2 v h1 h2 h3; rw [master, h1, h2, h3]
  · intro e1 e2 e3 h1 h2 h3; rw [master, h1, h2, h3]

/-- Witness for the retry theorem: with every attempt failing, the
trace is call, failover, sleep 1 s, call, failover, sleep 2 s, call,
and the third error is propagated. -/
theorem callSteemAPI_retry_spec_witness :
    ((fun _ => (.error "boom" : Except String JVal)) 1 = .error "boom") ∧
    callSteemAPI (fun _ => .error "boom") =
      ([.call 1, .failover, .sleep 1000, .call 2, .failover, .sleep 2000, .call 3],
       .error "boom") :=
  ⟨rfl, (callSteemAPI_retry_spec (fun _ => .error "boom")).2.2.2.2
    "boom" "boom" "boom" rfl rfl rfl⟩

end SteemBridge
